import Mathlib

/-!
Webhook ingestion pipeline of playcamp-go-sdk-example

A shallow embedding of `handlers_webhooks.go` and `helpers.go`:

* Go slices are Lean lists (the nil slice is `[]`), `[]byte` / `json.RawMessage`
  is `List Nat`, a nilable pointer is an `Option`.
* Go `int` is `Int`; the increment `s.counter++` wraps as a 64-bit signed
  integer (`wrapInt64`).
* A method with a pointer receiver is a function from the store before the call
  to the store after it.  A run-time panic is an explicit outcome.
* `time.Now().UTC().Format(time.RFC3339)` is the parameter `now`.
* `webhookutil.Verify` belongs to the external SDK and is a parameter `verify`.
* The mutex is not modelled: every call is taken as one atomic step.
-/

namespace PlayCamp

/-! ## Data model -/

/-- Go `type webhookEvent struct`. -/
structure webhookEvent where
  Event : String
  Timestamp : String
  IsTest : Option Bool
  Data : List Nat
deriving DecidableEq, Repr

/-- Go `type receivedWebhook struct`. -/
structure receivedWebhook where
  ID : String
  Valid : Bool
  Error : String
  Events : List webhookEvent
  ReceivedAt : String
  RawBody : List Nat
deriving DecidableEq, Repr

/-- Go `type webhookStore struct` (without the mutex). -/
structure webhookStore where
  webhooks : List receivedWebhook
  counter : Int
  maxSize : Int
deriving DecidableEq, Repr

/-- The zero value of `receivedWebhook`, as produced by `make` and by a
composite literal that leaves fields out. -/
def zeroWebhook : receivedWebhook :=
  { ID := "", Valid := false, Error := "", Events := [], ReceivedAt := "", RawBody := [] }

/-- Two's-complement wrap-around of a 64-bit signed Go `int`. -/
def wrapInt64 (x : Int) : Int :=
  (x + 2 ^ 63) % 2 ^ 64 - 2 ^ 63

/-- How a call that mutates the store ends: it returns, or it panics; either way
the deferred `Unlock` runs and the store stays as mutated so far. -/
inductive Completion where
  | returned (s : webhookStore)
  | panicked (s : webhookStore)
deriving DecidableEq, Repr

/-- The store a call leaves behind. -/
def Completion.store : Completion → webhookStore
  | .returned s => s
  | .panicked s => s

/-- Whether the call ended in a panic. -/
def Completion.isPanic : Completion → Bool
  | .returned _ => false
  | .panicked _ => true

/-! ## The store -/

/-- Go `newWebhookStore`: `&webhookStore{maxSize: maxSize}`. -/
def newWebhookStore (maxSize : Int) : webhookStore :=
  { webhooks := [], counter := 0, maxSize := maxSize }

/-- Value of `s.counter` after `s.counter++` (line 50). -/
def nextCounter (s : webhookStore) : Int :=
  wrapInt64 (s.counter + 1)

/-- The record after lines 51-52 of `add`: `ID` is `fmt.Sprintf("wh_%d", s.counter)`
with the incremented counter, `ReceivedAt` is the formatted current time. -/
def stamp (s : webhookStore) (wh : receivedWebhook) (now : String) : receivedWebhook :=
  { wh with ID := "wh_" ++ toString (nextCounter s), ReceivedAt := now }

/-- Go `(*webhookStore).add`.  The slice expression `s.webhooks[:s.maxSize]` panics
when `s.maxSize` is negative; the upper bound is inside the slice because the
expression is reached only when `len(s.webhooks) > s.maxSize`. -/
def add (s : webhookStore) (wh : receivedWebhook) (now : String) : Completion :=
  let counter := nextCounter s
  let wh := stamp s wh now
  let webhooks := wh :: s.webhooks
  if (webhooks.length : Int) > s.maxSize then
    if s.maxSize < 0 then
      .panicked { s with counter := counter, webhooks := webhooks }
    else
      .returned { s with counter := counter, webhooks := webhooks.take s.maxSize.toNat }
  else
    .returned { s with counter := counter, webhooks := webhooks }

/-- Go builtin `copy(dst, src)`: overwrites the first `min(len(dst), len(src))`
elements of `dst`; the result is `dst` after the call. -/
def copy {α : Type} (dst src : List α) : List α :=
  src.take (min dst.length src.length) ++ dst.drop (min dst.length src.length)

/-- Go `(*webhookStore).list`: a fresh slice of the same length filled by `copy`.
The method assigns to no field of the store. -/
def list (s : webhookStore) : List receivedWebhook :=
  let result := List.replicate s.webhooks.length zeroWebhook
  copy result s.webhooks

/-- Go `(*webhookStore).clear`: `s.webhooks = nil`. -/
def clear (s : webhookStore) : webhookStore :=
  { s with webhooks := [] }

/-! ## Sequences of calls -/

/-- One call on the store. -/
inductive Op where
  | add (wh : receivedWebhook) (now : String)
  | list
  | clear
deriving DecidableEq, Repr

/-- The store after one call.  An `add` that panics leaves the store as mutated up to the
panic; under the `Recoverer` middleware installed by `main` later calls go on from there. -/
def step (s : webhookStore) : Op → webhookStore
  | .add wh now => (add s wh now).store
  | .list => s
  | .clear => clear s

/-- The store after a sequence of calls, in call order. -/
def run (s : webhookStore) (ops : List Op) : webhookStore :=
  ops.foldl step s

/-- Whether one call panics. -/
def opPanics (s : webhookStore) : Op → Bool
  | .add wh now => (add s wh now).isPanic
  | .list => false
  | .clear => false

/-- Whether some call of the sequence panics. -/
def anyPanic (s : webhookStore) : List Op → Bool
  | [] => false
  | op :: ops => opPanics s op || anyPanic (step s op) ops

/-- The counter values taken by the `add` calls of a sequence, in call order. -/
def assignedCounters (s : webhookStore) : List Op → List Int
  | [] => []
  | .add wh now :: ops => nextCounter s :: assignedCounters (add s wh now).store ops
  | .list :: ops => assignedCounters s ops
  | .clear :: ops => assignedCounters (clear s) ops

/-- The ids given to the records by the `add` calls of a sequence, in call order. -/
def assignedIDs (s : webhookStore) : List Op → List String
  | [] => []
  | .add wh now :: ops => (stamp s wh now).ID :: assignedIDs (add s wh now).store ops
  | .list :: ops => assignedIDs s ops
  | .clear :: ops => assignedIDs (clear s) ops

/-- The store's counter read right after each `add` call of a sequence, in call order. -/
def countersAfter (s : webhookStore) : List Op → List Int
  | [] => []
  | .add wh now :: ops => (add s wh now).store.counter :: countersAfter (add s wh now).store ops
  | .list :: ops => countersAfter s ops
  | .clear :: ops => countersAfter (clear s) ops

/-- The id read back from the store right after each `add` call of a sequence, in call order:
the `ID` of the record at position 0 of `list()` after the call, `none` when `list()` is
empty then. -/
def frontIDs (s : webhookStore) : List Op → List (Option String)
  | [] => []
  | .add wh now :: ops =>
    (list (add s wh now).store).head?.map receivedWebhook.ID :: frontIDs (add s wh now).store ops
  | .list :: ops => frontIDs s ops
  | .clear :: ops => frontIDs (clear s) ops

/-- Number of `add` calls in a sequence. -/
def countAdds : List Op → Nat
  | [] => 0
  | .add _ _ :: ops => countAdds ops + 1
  | _ :: ops => countAdds ops

/-- The sequence of calls `add(r₁), …, add(r_M)` for the given records and clock readings. -/
def addOps (inputs : List (receivedWebhook × String)) : List Op :=
  inputs.map (fun p => Op.add p.1 p.2)

/-- The fields of a record that the caller of `add` supplies. -/
def supplied (wh : receivedWebhook) : Bool × String × List webhookEvent × List Nat :=
  (wh.Valid, wh.Error, wh.Events, wh.RawBody)

/-! ## The receiver -/

/-- JSON documents written by the handlers (the part of `encoding/json` they use). -/
inductive JSON where
  | bool (b : Bool)
  | str (s : String)
  | obj (fields : List (String × JSON))

/-- What a handler wrote to its `http.ResponseWriter`. -/
structure Response where
  contentType : String
  status : Nat
  body : JSON

/-- Go `http.StatusOK`. -/
def StatusOK : Nat := 200

/-- Go `http.StatusBadRequest`. -/
def StatusBadRequest : Nat := 400

/-- Go `writeJSON`: the value is wrapped in an object under the key `data`. -/
def writeJSON (status : Nat) (v : JSON) : Response :=
  { contentType := "application/json", status := status, body := .obj [("data", v)] }

/-- Go `writeError`. -/
def writeError (status : Nat) (message : String) : Response :=
  { contentType := "application/json", status := status, body := .obj [("error", .str message)] }

/-- The part of `*http.Request` the receiver reads: what `io.ReadAll(r.Body)` gives
and the header `X-Webhook-Signature`. -/
structure Request where
  Body : Except String (List Nat)
  Signature : String

/-- Go `readRawBody`. -/
def readRawBody (r : Request) : Except String (List Nat) :=
  r.Body

/-- One event of the SDK payload, with the fields the receiver reads. -/
structure PayloadEvent where
  Event : String
  Timestamp : String
  IsTest : Option Bool
  Data : List Nat
deriving DecidableEq, Repr

/-- The parsed payload of the SDK, `*result.Payload`. -/
structure WebhookPayload where
  Events : List PayloadEvent
deriving DecidableEq, Repr

/-- SDK `webhookutil.VerifyOptions`. -/
structure VerifyOptions where
  Payload : List Nat
  Signature : String
  Secret : String
deriving DecidableEq, Repr

/-- SDK `webhookutil.VerifyResult`; `Payload` is a pointer that may be nil. -/
structure VerifyResult where
  Valid : Bool
  Error : String
  Payload : Option WebhookPayload
deriving DecidableEq, Repr

/-- Go `type app struct`, with the fields the webhook handlers use. -/
structure app where
  webhookSecret : String
  receivedWebhooks : webhookStore
deriving DecidableEq, Repr

/-- What a handler did: the app after the request, the response it wrote (`none` when
it panicked before writing one) and the lines it logged. -/
structure Handled where
  after : app
  response : Option Response
  logged : List String

/-- The composite literal built in the loop body of the receiver (lines 213-218). -/
def toWebhookEvent (evt : PayloadEvent) : webhookEvent :=
  { Event := evt.Event, Timestamp := evt.Timestamp, IsTest := evt.IsTest, Data := evt.Data }

/-- Lines 202-220 of `handleWebhookReceiver`: the record built from the body and the
verdict, before it is handed to `add`. -/
def buildReceived (body : List Nat) (result : VerifyResult) : receivedWebhook :=
  let wh : receivedWebhook := { zeroWebhook with Valid := result.Valid, RawBody := body }
  let wh := if !result.Valid then { wh with Error := result.Error } else wh
  match result.Payload with
  | some payload =>
    payload.Events.foldl
      (fun (wh : receivedWebhook) evt => { wh with Events := wh.Events ++ [toWebhookEvent evt] }) wh
  | none => wh

/-- Go `(*app).handleWebhookReceiver`. -/
def handleWebhookReceiver (a : app) (verify : VerifyOptions → VerifyResult) (now : String)
    (r : Request) : Handled :=
  match readRawBody r with
  | .error _ =>
    { after := a, response := some (writeError StatusBadRequest "failed to read body"),
      logged := [] }
  | .ok body =>
    let signature := r.Signature
    let result := verify { Payload := body, Signature := signature, Secret := a.webhookSecret }
    let wh := buildReceived body result
    match add a.receivedWebhooks wh now with
    | .panicked s => { after := { a with receivedWebhooks := s }, response := none, logged := [] }
    | .returned s =>
      let line :=
        if result.Valid then
          "[webhook] received valid webhook: events=[" ++
            ", ".intercalate (wh.Events.map (fun evt => evt.Event)) ++ "]"
        else
          "[webhook] received invalid webhook: " ++ result.Error
      { after := { a with receivedWebhooks := s },
        response := some (writeJSON StatusOK (.obj [("received", .bool true)])),
        logged := [line] }

/-! ## The simulator -/

/-- The anonymous struct `body` that `handleSimulateWebhook` decodes the request into. -/
structure simulateBody where
  Event : String
  Data : List Nat
deriving DecidableEq, Repr

/-- The part of `*http.Request` the simulator reads: what decoding the JSON body into the
struct gives, an error or the filled struct. -/
structure SimulateRequest where
  Decoded : Except String simulateBody

/-- Go `decodeJSON`, applied to the body struct of the simulator. -/
def decodeJSON (r : SimulateRequest) : Except String simulateBody :=
  r.Decoded

/-- Go `(*app).handleSimulateWebhook`.  The clock is read twice: `now` stamps the event in the
handler, `nowAdd` is the later reading taken inside `add`.  The composite literals leave
`IsTest`, `Error` and `RawBody` at their zero values. -/
def handleSimulateWebhook (a : app) (now nowAdd : String) (r : SimulateRequest) : Handled :=
  match decodeJSON r with
  | .error _ =>
    { after := a, response := some (writeError StatusBadRequest "invalid JSON body"),
      logged := [] }
  | .ok body =>
    let wh : receivedWebhook :=
      { zeroWebhook with
        Valid := true
        Events := [{ Event := body.Event, Timestamp := now, IsTest := none, Data := body.Data }] }
    match add a.receivedWebhooks wh nowAdd with
    | .panicked s => { after := { a with receivedWebhooks := s }, response := none, logged := [] }
    | .returned s =>
      { after := { a with receivedWebhooks := s },
        response := some (writeJSON StatusOK (.obj [("simulated", .bool true)])),
        logged := [] }

/-! ## Auxiliary notions for the proofs -/

/-- Reads a decimal digit string back, most significant digit first. -/
def readDigits (acc : Nat) (ds : List Char) : Nat :=
  ds.foldl (fun a c => 10 * a + (c.toNat - 48)) acc

/-- The ids of the retained records run down from the counter, and there are at most as many
records as the counter says. -/
def Contiguous (s : webhookStore) : Prop :=
  s.webhooks.map receivedWebhook.ID =
      (List.range s.webhooks.length).map (fun i : Nat => "wh_" ++ toString (s.counter - (i : Int))) ∧
    (s.webhooks.length : Int) ≤ s.counter

end PlayCamp

namespace PlayCamp

/-! ## Decimal rendering is injective -/

theorem digitChar_toNat (k : Nat) (hk : k < 10) : (Nat.digitChar k).toNat - 48 = k := by
  interval_cases k <;> rfl

theorem readDigits_toDigitsCore (fuel : Nat) :
    ∀ (n : Nat) (ds : List Char), n < fuel →
      readDigits 0 (Nat.toDigitsCore 10 fuel n ds) = readDigits n ds := by
  induction fuel with
  | zero => intro n ds h; omega
  | succ fuel ih =>
    intro n ds h
    have hd : (Nat.digitChar (n % 10)).toNat - 48 = n % 10 :=
      digitChar_toNat _ (Nat.mod_lt _ (by decide))
    unfold Nat.toDigitsCore
    by_cases h0 : n / 10 = 0
    · simp only [h0, if_true]
      simp only [readDigits, List.foldl_cons, hd]
      congr 1
      omega
    · simp only [h0, if_false]
      rw [ih (n / 10) _ (by omega)]
      simp only [readDigits, List.foldl_cons, hd]
      congr 1
      omega

theorem readDigits_repr (n : Nat) : readDigits 0 (Nat.repr n).data = n := by
  have h := readDigits_toDigitsCore (n + 1) n [] (Nat.lt_succ_self n)
  simpa [Nat.repr, Nat.toDigits, List.asString, readDigits] using h

theorem natRepr_injective : Function.Injective Nat.repr := by
  intro a b h
  rw [← readDigits_repr a, ← readDigits_repr b, h]

theorem toString_ofNat (n : Nat) : toString (n : Int) = Nat.repr n := rfl

/-- The id format `wh_%d` gives different strings to different non-negative counters. -/
theorem id_injective (a b : Int) (ha : 0 ≤ a) (hb : 0 ≤ b)
    (h : "wh_" ++ toString a = "wh_" ++ toString b) : a = b := by
  obtain ⟨m, rfl⟩ := Int.eq_ofNat_of_zero_le ha
  obtain ⟨n, rfl⟩ := Int.eq_ofNat_of_zero_le hb
  rw [toString_ofNat, toString_ofNat] at h
  have h2 : ("wh_" ++ Nat.repr m).data = ("wh_" ++ Nat.repr n).data := by rw [h]
  rw [String.data_append, String.data_append] at h2
  have h3 : (Nat.repr m).data = (Nat.repr n).data := List.append_cancel_left h2
  have h4 : Nat.repr m = Nat.repr n := String.ext h3
  exact congrArg _ (natRepr_injective h4)

end PlayCamp

namespace PlayCamp

/-! ## Basic facts about the store operations -/

theorem copy_full {α : Type} (z : α) (src : List α) :
    copy (List.replicate src.length z) src = src := by
  simp [copy]

theorem list_eq_webhooks (s : webhookStore) : list s = s.webhooks := by
  simp [list, copy_full]

theorem wrapInt64_of_range (x : Int) (h0 : -(2 ^ 63) ≤ x) (h1 : x < 2 ^ 63) :
    wrapInt64 x = x := by
  unfold wrapInt64
  omega

theorem nextCounter_eq (s : webhookStore) (h0 : 0 ≤ s.counter) (h1 : s.counter < 2 ^ 63 - 1) :
    nextCounter s = s.counter + 1 := by
  unfold nextCounter
  exact wrapInt64_of_range _ (by omega) (by omega)

/-- With a non-negative capacity `add` returns: the stamped record is put in front and
the slice is cut to the capacity. -/
theorem add_of_nonneg (s : webhookStore) (wh : receivedWebhook) (now : String)
    (h : 0 ≤ s.maxSize) :
    add s wh now = .returned
      { webhooks := (stamp s wh now :: s.webhooks).take s.maxSize.toNat,
        counter := nextCounter s, maxSize := s.maxSize } := by
  unfold add
  simp only []
  split_ifs with h1 h2
  · omega
  · rfl
  · have hle : (stamp s wh now :: s.webhooks).length ≤ s.maxSize.toNat := by
      have := h1
      omega
    rw [List.take_of_length_le hle]

/-- With a negative capacity `add` panics at the slice expression, after the counter
was incremented and the record was put in front. -/
theorem add_of_neg (s : webhookStore) (wh : receivedWebhook) (now : String)
    (h : s.maxSize < 0) :
    add s wh now = .panicked
      { webhooks := stamp s wh now :: s.webhooks,
        counter := nextCounter s, maxSize := s.maxSize } := by
  unfold add
  simp only []
  split_ifs with h1
  · rfl
  · have : (0 : Int) ≤ ((stamp s wh now :: s.webhooks).length : Int) := Int.ofNat_nonneg _
    omega

theorem add_counter (s : webhookStore) (wh : receivedWebhook) (now : String) :
    (add s wh now).store.counter = nextCounter s := by
  unfold add
  simp only []
  split_ifs <;> rfl

theorem add_maxSize (s : webhookStore) (wh : receivedWebhook) (now : String) :
    (add s wh now).store.maxSize = s.maxSize := by
  unfold add
  simp only []
  split_ifs <;> rfl

theorem step_maxSize (s : webhookStore) (op : Op) : (step s op).maxSize = s.maxSize := by
  cases op with
  | add wh now => exact add_maxSize s wh now
  | list => rfl
  | clear => rfl

theorem run_maxSize (ops : List Op) : ∀ s : webhookStore, (run s ops).maxSize = s.maxSize := by
  induction ops with
  | nil => intro s; rfl
  | cons op ops ih =>
    intro s
    show (run (step s op) ops).maxSize = s.maxSize
    rw [ih, step_maxSize]

theorem run_cons (s : webhookStore) (op : Op) (ops : List Op) :
    run s (op :: ops) = run (step s op) ops := rfl

theorem run_append (s : webhookStore) (ops₁ ops₂ : List Op) :
    run s (ops₁ ++ ops₂) = run (run s ops₁) ops₂ := by
  simp [run, List.foldl_append]

end PlayCamp

namespace PlayCamp

/-! ## Runs of `add` calls -/

theorem supplied_stamp (s : webhookStore) (wh : receivedWebhook) (now : String) :
    supplied (stamp s wh now) = supplied wh := rfl

theorem take_append_take {α : Type} (n : Nat) (A B : List α) :
    (A ++ B.take n).take n = (A ++ B).take n := by
  rw [List.take_append_eq_append_take, List.take_append_eq_append_take, List.take_take]
  congr 2
  omega

theorem step_add_of_nonneg (s : webhookStore) (wh : receivedWebhook) (now : String)
    (h : 0 ≤ s.maxSize) :
    step s (.add wh now) =
      { webhooks := (stamp s wh now :: s.webhooks).take s.maxSize.toNat,
        counter := nextCounter s, maxSize := s.maxSize } := by
  show (add s wh now).store = _
  rw [add_of_nonneg s wh now h]
  rfl

theorem anyPanic_addOps (inputs : List (receivedWebhook × String)) :
    ∀ s : webhookStore, 0 ≤ s.maxSize → anyPanic s (addOps inputs) = false := by
  induction inputs with
  | nil => intro s _; rfl
  | cons p rest ih =>
    intro s h
    show (opPanics s (.add p.1 p.2) || anyPanic (step s (.add p.1 p.2)) (addOps rest)) = false
    have h1 : opPanics s (.add p.1 p.2) = false := by
      show (add s p.1 p.2).isPanic = false
      rw [add_of_nonneg s p.1 p.2 h]
      rfl
    rw [h1, ih _ (by rw [step_maxSize]; exact h)]
    rfl

theorem run_addOps_supplied (inputs : List (receivedWebhook × String)) :
    ∀ s : webhookStore, 0 ≤ s.maxSize → s.webhooks.length ≤ s.maxSize.toNat →
      (run s (addOps inputs)).webhooks.map supplied =
        ((inputs.map Prod.fst).reverse.map supplied ++ s.webhooks.map supplied).take
          s.maxSize.toNat := by
  induction inputs with
  | nil =>
    intro s _ hlen
    simp only [addOps, List.map_nil, List.reverse_nil, List.nil_append]
    rw [List.take_of_length_le (by simpa using hlen)]
    rfl
  | cons p rest ih =>
    intro s h _
    show (run (step s (.add p.1 p.2)) (addOps rest)).webhooks.map supplied = _
    have hs := step_add_of_nonneg s p.1 p.2 h
    have hlen : (step s (.add p.1 p.2)).webhooks.length ≤ (step s (.add p.1 p.2)).maxSize.toNat := by
      rw [hs]
      exact List.length_take_le _ _
    rw [ih _ (by rw [step_maxSize]; exact h) hlen, step_maxSize, hs]
    simp only [List.map_take, List.map_cons, supplied_stamp, List.reverse_cons, List.map_append,
      List.append_assoc, List.singleton_append]
    exact take_append_take _ _ _

end PlayCamp

namespace PlayCamp

/-! ## Counters and ids along a sequence of calls -/

theorem assignedIDs_eq_map (ops : List Op) : ∀ s : webhookStore,
    assignedIDs s ops = (assignedCounters s ops).map (fun c => "wh_" ++ toString c) := by
  induction ops with
  | nil => intro s; rfl
  | cons op ops ih =>
    intro s
    cases op with
    | add wh now =>
      show (stamp s wh now).ID :: assignedIDs (add s wh now).store ops = _
      rw [ih]
      rfl
    | list => exact ih s
    | clear => exact ih (clear s)

/-- Below the 64-bit limit the `add` calls of a sequence take the counter values
`c + 1, c + 2, …` one after the other, whatever `list` and `clear` calls lie between. -/
theorem assignedCounters_eq (ops : List Op) : ∀ s : webhookStore,
    0 ≤ s.counter → s.counter + (countAdds ops : Int) < 2 ^ 63 →
    assignedCounters s ops =
      (List.range (countAdds ops)).map (fun i : Nat => s.counter + 1 + (i : Int)) := by
  induction ops with
  | nil => intro s _ _; rfl
  | cons op ops ih =>
    intro s h0 h1
    cases op with
    | add wh now =>
      have hk : countAdds (Op.add wh now :: ops) = countAdds ops + 1 := rfl
      rw [hk] at h1 ⊢
      push_cast at h1
      have hn : nextCounter s = s.counter + 1 := nextCounter_eq s h0 (by omega)
      show nextCounter s :: assignedCounters (add s wh now).store ops = _
      rw [ih _ (by rw [add_counter, hn]; omega) (by rw [add_counter, hn]; omega),
        add_counter, hn, List.range_succ_eq_map, List.map_cons, List.map_map]
      congr 1
      · simp
      · apply List.map_congr_left
        intro i _
        simp only [Function.comp, Nat.succ_eq_add_one]
        push_cast
        omega
    | list => exact ih s h0 h1
    | clear => exact ih (clear s) h0 h1

theorem run_addOps_counter (inputs : List (receivedWebhook × String)) : ∀ s : webhookStore,
    -(2 ^ 63) ≤ s.counter → s.counter < 2 ^ 63 →
    (run s (addOps inputs)).counter = wrapInt64 (s.counter + (inputs.length : Int)) := by
  induction inputs with
  | nil =>
    intro s h0 h1
    show s.counter = _
    rw [wrapInt64_of_range]
    · simp
    · simpa using h0
    · simpa using h1
  | cons p rest ih =>
    intro s h0 h1
    show (run (step s (.add p.1 p.2)) (addOps rest)).counter = _
    have hc : (step s (.add p.1 p.2)).counter = wrapInt64 (s.counter + 1) := add_counter s p.1 p.2
    have hr : -(2 ^ 63) ≤ wrapInt64 (s.counter + 1) ∧ wrapInt64 (s.counter + 1) < 2 ^ 63 := by
      unfold wrapInt64
      omega
    rw [ih _ (by rw [hc]; exact hr.1) (by rw [hc]; exact hr.2), hc]
    simp only [List.length_cons]
    push_cast
    unfold wrapInt64
    omega

end PlayCamp

namespace PlayCamp

theorem countAdds_append (ops₁ ops₂ : List Op) :
    countAdds (ops₁ ++ ops₂) = countAdds ops₁ + countAdds ops₂ := by
  induction ops₁ with
  | nil => simp [countAdds]
  | cons op ops ih =>
    cases op with
    | add wh now => simp [countAdds, ih]; omega
    | list => simp [countAdds, ih]
    | clear => simp [countAdds, ih]

theorem run_counter (ops : List Op) : ∀ s : webhookStore,
    0 ≤ s.counter → s.counter + (countAdds ops : Int) < 2 ^ 63 →
    (run s ops).counter = s.counter + (countAdds ops : Int) := by
  induction ops with
  | nil => intro s _ _; simp [run, countAdds]
  | cons op ops ih =>
    intro s h0 h1
    rw [run_cons]
    cases op with
    | add wh now =>
      have hk : countAdds (Op.add wh now :: ops) = countAdds ops + 1 := rfl
      rw [hk] at h1 ⊢
      push_cast at h1 ⊢
      have hn : nextCounter s = s.counter + 1 := nextCounter_eq s h0 (by omega)
      have hc : (step s (.add wh now)).counter = s.counter + 1 := by
        rw [← hn]; exact add_counter s wh now
      rw [ih _ (by rw [hc]; omega) (by rw [hc]; omega), hc]
      omega
    | list => exact ih s h0 h1
    | clear => exact ih (clear s) h0 h1

theorem list_step_add_head (s : webhookStore) (wh : receivedWebhook) (now : String)
    (h : 1 ≤ s.maxSize) :
    list (step s (.add wh now)) = stamp s wh now :: s.webhooks.take (s.maxSize.toNat - 1) := by
  rw [list_eq_webhooks, step_add_of_nonneg s wh now (by omega)]
  obtain ⟨n, hn⟩ : ∃ n, s.maxSize.toNat = n + 1 := ⟨s.maxSize.toNat - 1, by omega⟩
  simp [hn]

end PlayCamp

namespace PlayCamp

/-! ## The claims -/

/-- C1, bounded retention: on a store built by `newWebhookStore N` with `N ≥ 1`, adding
`M > N` records one after the other panics nowhere, and afterwards `list()` has exactly `N`
records, namely the `N` most recently added, newest first, each with the `valid`, `error`,
`events` and `rawBody` of the input it comes from. -/
theorem bounded_retention (N : Int) (hN : 1 ≤ N) (inputs : List (receivedWebhook × String))
    (hM : N < (inputs.length : Int)) :
    anyPanic (newWebhookStore N) (addOps inputs) = false ∧
    ((list (run (newWebhookStore N) (addOps inputs))).length : Int) = N ∧
    (list (run (newWebhookStore N) (addOps inputs))).map supplied =
      ((inputs.map Prod.fst).reverse.take N.toNat).map supplied := by
  have hmap := run_addOps_supplied inputs (newWebhookStore N)
    (show (0 : Int) ≤ N by omega) (Nat.zero_le _)
  have hmap2 : (list (run (newWebhookStore N) (addOps inputs))).map supplied =
      ((inputs.map Prod.fst).reverse.take N.toNat).map supplied := by
    rw [list_eq_webhooks, hmap]
    show ((List.map Prod.fst inputs).reverse.map supplied ++ List.map supplied []).take N.toNat = _
    simp [List.map_take]
  refine ⟨anyPanic_addOps inputs _ (show (0 : Int) ≤ N by omega), ?_, hmap2⟩
  have hlen := congrArg List.length hmap2
  simp only [List.length_map, List.length_take, List.length_reverse] at hlen
  rw [hlen]
  omega

/-- Scenario 1 of the spec: capacity 2, records A, B, C. -/
theorem bounded_retention_witness :
    anyPanic (newWebhookStore 2) (addOps
      [({ zeroWebhook with Error := "A" }, "t1"), ({ zeroWebhook with Error := "B" }, "t2"),
       ({ zeroWebhook with Error := "C" }, "t3")]) = false ∧
    ((list (run (newWebhookStore 2) (addOps
      [({ zeroWebhook with Error := "A" }, "t1"), ({ zeroWebhook with Error := "B" }, "t2"),
       ({ zeroWebhook with Error := "C" }, "t3")]))).length : Int) = 2 ∧
    (list (run (newWebhookStore 2) (addOps
      [({ zeroWebhook with Error := "A" }, "t1"), ({ zeroWebhook with Error := "B" }, "t2"),
       ({ zeroWebhook with Error := "C" }, "t3")]))).map supplied =
      (([({ zeroWebhook with Error := "A" }, "t1"), ({ zeroWebhook with Error := "B" }, "t2"),
       ({ zeroWebhook with Error := "C" }, "t3")].map Prod.fst).reverse.take (2 : Int).toNat).map
        supplied :=
  bounded_retention 2 (by decide) _ (by decide)

theorem countersAfter_eq (ops : List Op) : ∀ s : webhookStore,
    countersAfter s ops = assignedCounters s ops := by
  induction ops with
  | nil => intro s; rfl
  | cons op ops ih =>
    intro s
    cases op with
    | add wh now =>
      show (add s wh now).store.counter :: countersAfter (add s wh now).store ops =
        nextCounter s :: assignedCounters (add s wh now).store ops
      rw [ih, add_counter]
    | list => exact ih s
    | clear => exact ih (clear s)

/-- Unless the capacity is 0, the record at the front of `list()` right after an `add` is the
stamped record, also when the `add` panicked at the truncation. -/
theorem front_after_add (s : webhookStore) (wh : receivedWebhook) (now : String)
    (h : s.maxSize ≠ 0) :
    (list (add s wh now).store).head? = some (stamp s wh now) := by
  rw [list_eq_webhooks]
  by_cases hneg : s.maxSize < 0
  · rw [add_of_neg s wh now hneg]
    rfl
  · have h1 : 1 ≤ s.maxSize := by omega
    have := list_step_add_head s wh now h1
    rw [list_eq_webhooks] at this
    show (step s (.add wh now)).webhooks.head? = _
    rw [this]
    rfl

theorem frontIDs_eq (ops : List Op) : ∀ s : webhookStore, s.maxSize ≠ 0 →
    frontIDs s ops = (assignedIDs s ops).map some := by
  induction ops with
  | nil => intro s _; rfl
  | cons op ops ih =>
    intro s h
    cases op with
    | add wh now =>
      show (list (add s wh now).store).head?.map receivedWebhook.ID ::
          frontIDs (add s wh now).store ops =
        List.map some ((stamp s wh now).ID :: assignedIDs (add s wh now).store ops)
      rw [ih _ (by rw [add_maxSize]; exact h), front_after_add s wh now h]
      rfl
    | list => exact ih s h
    | clear => exact ih (clear s) h

/-- C2, id monotonicity and uniqueness: along every sequence of `add`, `list` and `clear`
calls with fewer than `2 ^ 63` adds on a store built by `newWebhookStore`, the counter read
from the store after each add is strictly increasing in call order; unless the capacity is 0
(then nothing is ever stored), the id read back from the front of `list()` after each add is
`wh_` followed by that counter, and these stored ids are pairwise distinct strings, across
`clear` calls too.  The ids computed by `add` before it stores the record (`assignedIDs`) are
the same strings, for every capacity. -/
theorem id_monotone_unique (maxSize : Int) (ops : List Op) (h : countAdds ops < 2 ^ 63) :
    (countersAfter (newWebhookStore maxSize) ops).Pairwise (fun a b => a < b) ∧
    (maxSize ≠ 0 →
      frontIDs (newWebhookStore maxSize) ops =
          (countersAfter (newWebhookStore maxSize) ops).map
            (fun c => some ("wh_" ++ toString c)) ∧
        (frontIDs (newWebhookStore maxSize) ops).Pairwise (fun a b => a ≠ b)) ∧
    countersAfter (newWebhookStore maxSize) ops = assignedCounters (newWebhookStore maxSize) ops ∧
    (assignedCounters (newWebhookStore maxSize) ops).Pairwise (fun a b => a < b) ∧
    (assignedIDs (newWebhookStore maxSize) ops).Pairwise (fun a b => a ≠ b) ∧
    assignedIDs (newWebhookStore maxSize) ops =
      (assignedCounters (newWebhookStore maxSize) ops).map (fun c => "wh_" ++ toString c) := by
  have hc := assignedCounters_eq ops (newWebhookStore maxSize) (le_refl _)
    (by show (0 : Int) + (countAdds ops : Int) < 2 ^ 63; exact_mod_cast (by omega : 0 + countAdds ops < 2 ^ 63))
  have hlt : (assignedCounters (newWebhookStore maxSize) ops).Pairwise (fun a b => a < b) := by
    rw [hc, List.pairwise_map]
    refine List.Pairwise.imp ?_ (List.pairwise_lt_range _)
    intro i j hij
    show (newWebhookStore maxSize).counter + 1 + (i : Int) <
      (newWebhookStore maxSize).counter + 1 + (j : Int)
    omega
  have hne : (assignedIDs (newWebhookStore maxSize) ops).Pairwise (fun a b => a ≠ b) := by
    rw [assignedIDs_eq_map, hc, List.map_map, List.pairwise_map]
    refine List.Pairwise.imp ?_ (List.pairwise_lt_range _)
    intro i j hij heq
    have hi : (0 : Int) ≤ (newWebhookStore maxSize).counter + 1 + (i : Int) := by
      show (0 : Int) ≤ 0 + 1 + (i : Int)
      omega
    have hj : (0 : Int) ≤ (newWebhookStore maxSize).counter + 1 + (j : Int) := by
      show (0 : Int) ≤ 0 + 1 + (j : Int)
      omega
    have heq2 : (newWebhookStore maxSize).counter + 1 + (i : Int) =
        (newWebhookStore maxSize).counter + 1 + (j : Int) := id_injective _ _ hi hj heq
    omega
  refine ⟨by rw [countersAfter_eq]; exact hlt, ?_, countersAfter_eq ops _, hlt, hne,
    assignedIDs_eq_map ops _⟩
  intro h0
  have hf := frontIDs_eq ops (newWebhookStore maxSize) h0
  constructor
  · rw [hf, countersAfter_eq, assignedIDs_eq_map, List.map_map]
    rfl
  · rw [hf, List.pairwise_map]
    refine List.Pairwise.imp ?_ hne
    intro a b hab heq
    exact hab (Option.some.inj heq)

/-- Capacity 2, three adds with a `clear` and a `list` between them: the ids read back from
the store are `wh_1`, `wh_2`, `wh_3` and the counters read from it are 1, 2, 3. -/
theorem id_monotone_unique_witness :
    frontIDs (newWebhookStore 2)
        [.add zeroWebhook "t1", .clear, .add zeroWebhook "t2", .list, .add zeroWebhook "t3"] =
      [some "wh_1", some "wh_2", some "wh_3"] ∧
    (frontIDs (newWebhookStore 2)
        [.add zeroWebhook "t1", .clear, .add zeroWebhook "t2", .list,
          .add zeroWebhook "t3"]).Pairwise (fun a b => a ≠ b) ∧
    (countersAfter (newWebhookStore 2)
        [.add zeroWebhook "t1", .clear, .add zeroWebhook "t2", .list,
          .add zeroWebhook "t3"]).Pairwise (fun a b => a < b) ∧
    countersAfter (newWebhookStore 2)
        [.add zeroWebhook "t1", .clear, .add zeroWebhook "t2", .list, .add zeroWebhook "t3"] =
      [1, 2, 3] :=
  ⟨((id_monotone_unique 2
      [.add zeroWebhook "t1", .clear, .add zeroWebhook "t2", .list, .add zeroWebhook "t3"]
      (by decide)).2.1 (by decide)).1.trans (by decide),
   ((id_monotone_unique 2
      [.add zeroWebhook "t1", .clear, .add zeroWebhook "t2", .list, .add zeroWebhook "t3"]
      (by decide)).2.1 (by decide)).2,
   (id_monotone_unique 2
      [.add zeroWebhook "t1", .clear, .add zeroWebhook "t2", .list, .add zeroWebhook "t3"]
      (by decide)).1,
   (id_monotone_unique 2
      [.add zeroWebhook "t1", .clear, .add zeroWebhook "t2", .list, .add zeroWebhook "t3"]
      (by decide)).2.2.1.trans (by decide)⟩

end PlayCamp

namespace PlayCamp

/-! ## The state at the 64-bit limit is reachable -/

theorem run_snoc (s : webhookStore) (ops : List Op) (op : Op) :
    run s (ops ++ [op]) = step (run s ops) op := by
  rw [run_append]
  rfl

theorem clear_eq (s : webhookStore) :
    clear s = { webhooks := [], counter := s.counter, maxSize := s.maxSize } := rfl

/-- The store with an empty list, capacity 50 and counter `2 ^ 63 - 1`, at which the
counterexamples about the counter are taken, is the store of `main` after `2 ^ 63 - 1`
calls to `add` and one `clear`. -/
theorem limit_state_reachable :
    run (newWebhookStore 50)
        (addOps (List.replicate (2 ^ 63 - 1) (zeroWebhook, "")) ++ [.clear]) =
      { webhooks := [], counter := 9223372036854775807, maxSize := 50 } := by
  have hc : (run (newWebhookStore 50)
      (addOps (List.replicate (2 ^ 63 - 1) (zeroWebhook, "")))).counter = 9223372036854775807 := by
    rw [run_addOps_counter _ _ (by decide) (by decide), List.length_replicate]
    decide
  have hm : (run (newWebhookStore 50)
      (addOps (List.replicate (2 ^ 63 - 1) (zeroWebhook, "")))).maxSize = 50 := run_maxSize _ _
  rw [run_snoc]
  show clear _ = _
  rw [clear_eq, hc, hm]

end PlayCamp

namespace PlayCamp

theorem run_addOps_snoc (s : webhookStore) (inputs : List (receivedWebhook × String))
    (p : receivedWebhook × String) :
    run s (addOps (inputs ++ [p])) = step (run s (addOps inputs)) (.add p.1 p.2) := by
  simp [addOps, run, List.foldl_append]

theorem head_id_step_add (s : webhookStore) (wh : receivedWebhook) (now : String)
    (h : 1 ≤ s.maxSize) :
    (list (step s (.add wh now))).head?.map receivedWebhook.ID =
      some ("wh_" ++ toString (nextCounter s)) := by
  rw [list_step_add_head s wh now h]
  rfl

/-- C3 as stated fails at the 64-bit limit: after `2 ^ 63` calls to `add` on a fresh store of
capacity 50 the newest record carries the id `wh_-9223372036854775808`, not
`wh_9223372036854775808`. -/
theorem kth_add_id_wraps :
    (list (run (newWebhookStore 50)
        (addOps (List.replicate (2 ^ 63) (zeroWebhook, ""))))).head?.map receivedWebhook.ID =
      some "wh_-9223372036854775808" ∧
    (list (run (newWebhookStore 50)
        (addOps (List.replicate (2 ^ 63) (zeroWebhook, ""))))).head?.map receivedWebhook.ID ≠
      some ("wh_" ++ toString (2 ^ 63 : Nat)) := by
  have hsplit : List.replicate (2 ^ 63) ((zeroWebhook, "") : receivedWebhook × String) =
      List.replicate (2 ^ 63 - 1) (zeroWebhook, "") ++ [(zeroWebhook, "")] := by
    rw [← List.replicate_succ']
    congr 1
  have hc : (run (newWebhookStore 50)
      (addOps (List.replicate (2 ^ 63 - 1) (zeroWebhook, "")))).counter = 2 ^ 63 - 1 := by
    rw [run_addOps_counter _ _ (by decide) (by decide), List.length_replicate]
    decide
  have hm : (run (newWebhookStore 50)
      (addOps (List.replicate (2 ^ 63 - 1) (zeroWebhook, "")))).maxSize = 50 := run_maxSize _ _
  have hid : (list (run (newWebhookStore 50)
        (addOps (List.replicate (2 ^ 63) (zeroWebhook, ""))))).head?.map receivedWebhook.ID =
      some "wh_-9223372036854775808" := by
    have hn : nextCounter (run (newWebhookStore 50)
        (addOps (List.replicate (2 ^ 63 - 1) (zeroWebhook, "")))) = -(2 ^ 63) := by
      show wrapInt64 (_ + 1) = _
      rw [hc]
      decide
    rw [hsplit, run_addOps_snoc, head_id_step_add _ _ _ (by rw [hm]; decide), hn]
    decide
  refine ⟨hid, ?_⟩
  rw [hid]
  decide

/-- C3 amended, id format below the 64-bit limit: on a store built by `newWebhookStore`, if the
call `add(wh)` is the `k`-th add (after any earlier calls, `k - 1` of them adds) and
`k < 2 ^ 63`, then the ids assigned so far are `wh_1, …, wh_k` in call order, and for a capacity
of at least 1 the record at the front of `list()` is `wh` with its id overwritten by `wh_k`. -/
theorem id_format (maxSize : Int) (pre : List Op) (wh : receivedWebhook) (now : String)
    (hk : countAdds pre + 1 < 2 ^ 63) :
    assignedIDs (newWebhookStore maxSize) (pre ++ [.add wh now]) =
      (List.range (countAdds pre + 1)).map (fun i => "wh_" ++ toString (i + 1)) ∧
    (1 ≤ maxSize →
      (list (run (newWebhookStore maxSize) (pre ++ [.add wh now]))).head? =
        some { wh with ID := "wh_" ++ toString (countAdds pre + 1), ReceivedAt := now }) := by
  have hcount : countAdds (pre ++ [.add wh now]) = countAdds pre + 1 := by
    rw [countAdds_append]; rfl
  have hlt : (0 : Int) + (countAdds pre : Int) < 2 ^ 63 := by
    have : countAdds pre < 2 ^ 63 := by omega
    rw [zero_add]
    exact_mod_cast this
  constructor
  · rw [assignedIDs_eq_map, assignedCounters_eq _ (newWebhookStore maxSize) (le_refl _)
      (by rw [hcount]; show (0 : Int) + _ < 2 ^ 63; rw [zero_add]; exact_mod_cast hk),
      hcount, List.map_map]
    apply List.map_congr_left
    intro i _
    show "wh_" ++ toString ((0 : Int) + 1 + (i : Int)) = "wh_" ++ toString (i + 1)
    have : (0 : Int) + 1 + (i : Int) = ((i + 1 : Nat) : Int) := by push_cast; omega
    rw [this, toString_ofNat]
    rfl
  · intro hN
    have hc : (run (newWebhookStore maxSize) pre).counter = (countAdds pre : Int) := by
      rw [run_counter pre (newWebhookStore maxSize) (le_refl _) hlt]
      exact zero_add _
    have hm : (run (newWebhookStore maxSize) pre).maxSize = maxSize := run_maxSize _ _
    rw [run_append]
    show (list (step (run (newWebhookStore maxSize) pre) (.add wh now))).head? = _
    rw [list_step_add_head _ _ _ (by rw [hm]; exact hN)]
    have hn : nextCounter (run (newWebhookStore maxSize) pre) = ((countAdds pre + 1 : Nat) : Int) := by
      rw [nextCounter_eq _ (by rw [hc]; exact Int.ofNat_nonneg _) (by rw [hc]; omega), hc]
      push_cast
      rfl
    unfold stamp
    rw [hn, toString_ofNat]
    rfl

/-- The first record of a fresh store of capacity 50 gets the id `wh_1`, whatever id the
caller wrote into it. -/
theorem id_format_witness :
    assignedIDs (newWebhookStore 50) ([] ++ [.add { zeroWebhook with ID := "mine" } "t"]) =
      (List.range (countAdds [] + 1)).map (fun i => "wh_" ++ toString (i + 1)) ∧
    ((1 : Int) ≤ 50 →
      (list (run (newWebhookStore 50) ([] ++ [.add { zeroWebhook with ID := "mine" } "t"]))).head? =
        some { ({ zeroWebhook with ID := "mine" } : receivedWebhook) with
          ID := "wh_" ++ toString (countAdds [] + 1), ReceivedAt := "t" }) :=
  id_format 50 [] { zeroWebhook with ID := "mine" } "t" (by decide)

end PlayCamp

namespace PlayCamp

theorem anyPanic_of_nonneg (ops : List Op) :
    ∀ s : webhookStore, 0 ≤ s.maxSize → anyPanic s ops = false := by
  induction ops with
  | nil => intro s _; rfl
  | cons op ops ih =>
    intro s h
    show (opPanics s op || anyPanic (step s op) ops) = false
    have h1 : opPanics s op = false := by
      cases op with
      | add wh now =>
        show (add s wh now).isPanic = false
        rw [add_of_nonneg s wh now h]
        rfl
      | list => rfl
      | clear => rfl
    rw [h1, ih _ (by rw [step_maxSize]; exact h)]
    rfl

theorem step_length_le (s : webhookStore) (op : Op) (h : 0 ≤ s.maxSize)
    (hlen : s.webhooks.length ≤ s.maxSize.toNat) :
    (step s op).webhooks.length ≤ (step s op).maxSize.toNat := by
  cases op with
  | add wh now =>
    rw [step_add_of_nonneg s wh now h]
    exact List.length_take_le _ _
  | list => exact hlen
  | clear => exact Nat.zero_le _

theorem run_length_le (ops : List Op) : ∀ s : webhookStore, 0 ≤ s.maxSize →
    s.webhooks.length ≤ s.maxSize.toNat →
    (run s ops).webhooks.length ≤ s.maxSize.toNat := by
  induction ops with
  | nil => intro s _ hlen; exact hlen
  | cons op ops ih =>
    intro s h hlen
    rw [run_cons]
    have := ih (step s op) (by rw [step_maxSize]; exact h) (step_length_le s op h hlen)
    rwa [step_maxSize] at this

/-- C4 as stated fails at the 64-bit limit: on a store whose counter is `2 ^ 63 - 1` (the
state of `limit_state_reachable`), the record added after a `clear()` gets the id
`wh_-9223372036854775808`, not `wh_` followed by `c + 1`. -/
theorem clear_then_add_wraps :
    (list (run { webhooks := [], counter := 9223372036854775807, maxSize := 50 }
        [.clear, .add zeroWebhook "t"])).map receivedWebhook.ID =
      ["wh_-9223372036854775808"] ∧
    (list (run { webhooks := [], counter := 9223372036854775807, maxSize := 50 }
        [.clear, .add zeroWebhook "t"])).map receivedWebhook.ID ≠
      ["wh_" ++ toString ((9223372036854775807 : Int) + 1)] := by
  decide

/-- C4 amended, clear independence from the counter: for every store state, `clear()` leaves
`list()` empty and the counter and the capacity unchanged; if moreover the counter `c` (a
64-bit value) is below `2 ^ 63 - 1`, one `add()` after the `clear()` assigns the id `wh_`
followed by `c + 1`, which is the id read back from the store unless the capacity is 0 and the
id of the only record listed when the capacity is at least 1, and that id is not `wh_1` once
`c ≥ 1`. -/
theorem clear_keeps_counter (s : webhookStore) (wh : receivedWebhook) (now : String) :
    list (clear s) = [] ∧
    (clear s).counter = s.counter ∧
    (clear s).maxSize = s.maxSize ∧
    opPanics s .clear = false ∧
    (-(2 ^ 63) ≤ s.counter → s.counter < 2 ^ 63 - 1 →
      assignedIDs s [.clear, .add wh now] = ["wh_" ++ toString (s.counter + 1)] ∧
      (s.maxSize ≠ 0 →
        frontIDs s [.clear, .add wh now] = [some ("wh_" ++ toString (s.counter + 1))]) ∧
      (1 ≤ s.maxSize → list (run s [.clear, .add wh now]) =
        [{ wh with ID := "wh_" ++ toString (s.counter + 1), ReceivedAt := now }]) ∧
      (1 ≤ s.counter → "wh_" ++ toString (s.counter + 1) ≠ "wh_1")) := by
  refine ⟨list_eq_webhooks _, rfl, rfl, rfl, ?_⟩
  intro h0 h1
  have hn : nextCounter (clear s) = s.counter + 1 := by
    show wrapInt64 (s.counter + 1) = s.counter + 1
    exact wrapInt64_of_range _ (by omega) (by omega)
  have hid : assignedIDs s [.clear, .add wh now] = ["wh_" ++ toString (s.counter + 1)] := by
    show [(stamp (clear s) wh now).ID] = _
    show ["wh_" ++ toString (nextCounter (clear s))] = _
    rw [hn]
  refine ⟨hid, ?_, ?_, ?_⟩
  · intro hm
    rw [frontIDs_eq _ s hm, hid]
    rfl
  · intro hN
    show list (step (clear s) (.add wh now)) = _
    rw [list_step_add_head (clear s) wh now hN]
    rw [show (clear s).webhooks = [] from rfl, List.take_nil]
    unfold stamp
    rw [hn]
  · intro hc heq
    have := id_injective (s.counter + 1) 1 (by omega) (by decide) heq
    omega

/-- At the 64-bit limit `clear()` still keeps the counter; at counter 7 the record added after
the `clear()` is the only one listed and carries the id `wh_8`. -/
theorem clear_keeps_counter_witness :
    list (clear { webhooks := [zeroWebhook], counter := 9223372036854775807, maxSize := 50 }) =
      [] ∧
    (clear { webhooks := [zeroWebhook], counter := 9223372036854775807, maxSize := 50 }).counter =
      9223372036854775807 ∧
    (clear { webhooks := [zeroWebhook], counter := 9223372036854775807, maxSize := 50 }).maxSize =
      50 ∧
    frontIDs { webhooks := [zeroWebhook], counter := 7, maxSize := 50 }
      [.clear, .add zeroWebhook "t"] = [some "wh_8"] ∧
    list (run { webhooks := [zeroWebhook], counter := 7, maxSize := 50 }
      [.clear, .add zeroWebhook "t"]) = [{ zeroWebhook with ID := "wh_8", ReceivedAt := "t" }] ∧
    "wh_8" ≠ "wh_1" :=
  ⟨(clear_keeps_counter
      { webhooks := [zeroWebhook], counter := 9223372036854775807, maxSize := 50 }
      zeroWebhook "t").1,
   (clear_keeps_counter
      { webhooks := [zeroWebhook], counter := 9223372036854775807, maxSize := 50 }
      zeroWebhook "t").2.1,
   (clear_keeps_counter
      { webhooks := [zeroWebhook], counter := 9223372036854775807, maxSize := 50 }
      zeroWebhook "t").2.2.1,
   (((clear_keeps_counter { webhooks := [zeroWebhook], counter := 7, maxSize := 50 }
      zeroWebhook "t").2.2.2.2 (by decide) (by decide)).2.1 (by decide)).trans (by decide),
   (((clear_keeps_counter { webhooks := [zeroWebhook], counter := 7, maxSize := 50 }
      zeroWebhook "t").2.2.2.2 (by decide) (by decide)).2.2.1 (by decide)).trans (by decide),
   ((clear_keeps_counter { webhooks := [zeroWebhook], counter := 7, maxSize := 50 }
      zeroWebhook "t").2.2.2.2 (by decide) (by decide)).2.2.2 (by decide)⟩

end PlayCamp

namespace PlayCamp

theorem take_cons_full {α : Type} (x : α) (l : List α) (n : Nat) (hn : 1 ≤ n)
    (hl : l.length = n) : (x :: l).take n = x :: l.dropLast := by
  obtain ⟨m, rfl⟩ : ∃ m, n = m + 1 := ⟨n - 1, by omega⟩
  rw [List.take_succ_cons, List.dropLast_eq_take, hl]
  rfl

theorem run_addOps_length (inputs : List (receivedWebhook × String)) (N : Int) (hN : 0 ≤ N) :
    (list (run (newWebhookStore N) (addOps inputs))).length = min N.toNat inputs.length := by
  have h := congrArg List.length
    (run_addOps_supplied inputs (newWebhookStore N) hN (Nat.zero_le _))
  rw [list_eq_webhooks]
  simpa [newWebhookStore] using h

/-- C5, size bound: on a store built by `newWebhookStore N` with `N ≥ 1`, no call of any
sequence of `add`, `list` and `clear` calls panics and the number of retained records is at
most `N` after every call of the sequence; the bound is reached, as `M` adds in a row leave
`min N M` records; and on every store of capacity `N` that holds `N` records `add` returns, puts
the new record in front and drops exactly the last one, keeping the other `N - 1` in order, so
that `N` records are held again. -/
theorem size_bound (N : Int) (hN : 1 ≤ N) (ops : List Op) :
    anyPanic (newWebhookStore N) ops = false ∧
    (∀ k : Nat, ((list (run (newWebhookStore N) (ops.take k))).length : Int) ≤ N) ∧
    (∀ inputs : List (receivedWebhook × String),
      (list (run (newWebhookStore N) (addOps inputs))).length = min N.toNat inputs.length) ∧
    (∀ (s : webhookStore) (wh : receivedWebhook) (now : String),
      s.maxSize = N → ((list s).length : Int) = N →
      add s wh now = .returned (step s (.add wh now)) ∧
      list (step s (.add wh now)) = stamp s wh now :: (list s).dropLast ∧
      ((list (step s (.add wh now))).length : Int) = N) := by
  have h0 : (0 : Int) ≤ (newWebhookStore N).maxSize := by
    show (0 : Int) ≤ N
    omega
  refine ⟨anyPanic_of_nonneg ops _ h0, ?_, fun inputs => run_addOps_length inputs N (by omega),
    ?_⟩
  · intro k
    have := run_length_le (ops.take k) (newWebhookStore N) h0 (Nat.zero_le _)
    rw [list_eq_webhooks]
    have hm : (newWebhookStore N).maxSize = N := rfl
    rw [hm] at this
    omega
  · intro s wh now hm hlen
    rw [list_eq_webhooks] at hlen
    have hl : list (step s (.add wh now)) = stamp s wh now :: (list s).dropLast := by
      rw [list_eq_webhooks, list_eq_webhooks, step_add_of_nonneg s wh now (by omega), hm]
      exact take_cons_full _ _ _ (by omega) (by omega)
    refine ⟨?_, hl, ?_⟩
    · rw [step_add_of_nonneg s wh now (by omega)]
      exact add_of_nonneg s wh now (by omega)
    · rw [hl, list_eq_webhooks, List.length_cons, List.length_dropLast]
      omega

/-- Capacity 2: after the adds of A and B the store is full, and the add of C evicts A, the
oldest record, and keeps B behind C. -/
theorem size_bound_witness :
    anyPanic (newWebhookStore 2)
      [.add { zeroWebhook with Error := "A" } "t1", .add { zeroWebhook with Error := "B" } "t2",
       .add { zeroWebhook with Error := "C" } "t3"] = false ∧
    list (run (newWebhookStore 2)
      [.add { zeroWebhook with Error := "A" } "t1", .add { zeroWebhook with Error := "B" } "t2"]) =
      [{ zeroWebhook with ID := "wh_2", Error := "B", ReceivedAt := "t2" },
       { zeroWebhook with ID := "wh_1", Error := "A", ReceivedAt := "t1" }] ∧
    list (step (run (newWebhookStore 2)
      [.add { zeroWebhook with Error := "A" } "t1", .add { zeroWebhook with Error := "B" } "t2"])
      (.add { zeroWebhook with Error := "C" } "t3")) =
      [{ zeroWebhook with ID := "wh_3", Error := "C", ReceivedAt := "t3" },
       { zeroWebhook with ID := "wh_2", Error := "B", ReceivedAt := "t2" }] :=
  ⟨(size_bound 2 (by decide)
      [.add { zeroWebhook with Error := "A" } "t1", .add { zeroWebhook with Error := "B" } "t2",
       .add { zeroWebhook with Error := "C" } "t3"]).1,
   by decide,
   ((size_bound 2 (by decide) []).2.2.2
      (run (newWebhookStore 2)
        [.add { zeroWebhook with Error := "A" } "t1", .add { zeroWebhook with Error := "B" } "t2"])
      { zeroWebhook with Error := "C" } "t3" (by decide) (by decide)).2.1.trans (by decide)⟩

/-- C6, newest-first insertion: for every store state with capacity at least 1 and every record
`r`, `add(r)` returns, and afterwards `list()` starts with `r` carrying the id and the
`receivedAt` given by the store and the supplied `valid`, `error`, `events` and `rawBody`,
followed by the records listed before, unmodified and in the same order, cut to the first
`capacity - 1` of them (all of them when there is room). -/
theorem newest_first (s : webhookStore) (r : receivedWebhook) (now : String)
    (h : 1 ≤ s.maxSize) :
    add s r now = .returned (step s (.add r now)) ∧
    list (step s (.add r now)) = stamp s r now :: (list s).take (s.maxSize.toNat - 1) ∧
    (((list s).length : Int) < s.maxSize → list (step s (.add r now)) = stamp s r now :: list s) ∧
    (stamp s r now).ID = "wh_" ++ toString (nextCounter s) ∧
    (stamp s r now).ReceivedAt = now ∧
    (stamp s r now).Valid = r.Valid ∧
    (stamp s r now).Error = r.Error ∧
    (stamp s r now).Events = r.Events ∧
    (stamp s r now).RawBody = r.RawBody := by
  have hl : list (step s (.add r now)) = stamp s r now :: (list s).take (s.maxSize.toNat - 1) := by
    rw [list_step_add_head s r now h, list_eq_webhooks s]
  refine ⟨?_, hl, ?_, rfl, rfl, rfl, rfl, rfl, rfl⟩
  · rw [step_add_of_nonneg s r now (by omega)]
    exact add_of_nonneg s r now (by omega)
  · intro hlen
    rw [hl, List.take_of_length_le (by omega)]

/-- A store of capacity 2 that is full: the new record comes first, the older of the two
retained records is evicted. -/
theorem newest_first_witness :
    list (step
        { webhooks := [{ zeroWebhook with ID := "wh_2" }, { zeroWebhook with ID := "wh_1" }]
          counter := 2
          maxSize := 2 }
        (.add { zeroWebhook with Valid := true } "t")) =
      [{ zeroWebhook with ID := "wh_3", Valid := true, ReceivedAt := "t" },
        { zeroWebhook with ID := "wh_2" }] :=
  ((newest_first
    { webhooks := [{ zeroWebhook with ID := "wh_2" }, { zeroWebhook with ID := "wh_1" }]
      counter := 2
      maxSize := 2 }
    { zeroWebhook with Valid := true } "t" (by decide)).2.1).trans (by decide)

end PlayCamp

namespace PlayCamp

/-! ## The receiver -/

theorem foldl_events (evts : List PayloadEvent) : ∀ wh : receivedWebhook,
    evts.foldl
      (fun (wh : receivedWebhook) evt => { wh with Events := wh.Events ++ [toWebhookEvent evt] }) wh =
      { wh with Events := wh.Events ++ evts.map toWebhookEvent } := by
  induction evts with
  | nil => intro wh; simp
  | cons e rest ih =>
    intro wh
    rw [List.foldl_cons, ih]
    simp

theorem buildReceived_events (body : List Nat) (result : VerifyResult) :
    (buildReceived body result).Events =
      match result.Payload with
      | some payload => payload.Events.map toWebhookEvent
      | none => [] := by
  unfold buildReceived
  cases hp : result.Payload with
  | none => cases hv : result.Valid <;> simp [zeroWebhook]
  | some payload =>
    simp only [foldl_events]
    cases hv : result.Valid <;> simp [zeroWebhook]

theorem buildReceived_valid (body : List Nat) (result : VerifyResult) :
    (buildReceived body result).Valid = result.Valid := by
  unfold buildReceived
  cases hp : result.Payload with
  | none => cases hv : result.Valid <;> simp
  | some payload =>
    simp only [foldl_events]
    cases hv : result.Valid <;> simp

theorem buildReceived_rawBody (body : List Nat) (result : VerifyResult) :
    (buildReceived body result).RawBody = body := by
  unfold buildReceived
  cases hp : result.Payload with
  | none => cases hv : result.Valid <;> simp
  | some payload =>
    simp only [foldl_events]
    cases hv : result.Valid <;> simp

theorem buildReceived_error (body : List Nat) (result : VerifyResult) :
    (buildReceived body result).Error = if result.Valid then "" else result.Error := by
  unfold buildReceived
  cases hp : result.Payload with
  | none => cases hv : result.Valid <;> simp [zeroWebhook]
  | some payload =>
    simp only [foldl_events]
    cases hv : result.Valid <;> simp [zeroWebhook]

/-- The store after a request with a readable body is the store after one `add` of the
record built from the body and the verdict. -/
theorem receiver_store (a : app) (verify : VerifyOptions → VerifyResult) (now : String)
    (body : List Nat) (sig : String) :
    (handleWebhookReceiver a verify now { Body := .ok body, Signature := sig }).after.receivedWebhooks =
      step a.receivedWebhooks (.add (buildReceived body
        (verify { Payload := body, Signature := sig, Secret := a.webhookSecret })) now) := by
  unfold handleWebhookReceiver
  simp only [readRawBody]
  show _ = (add _ _ _).store
  cases add a.receivedWebhooks (buildReceived body
    (verify { Payload := body, Signature := sig, Secret := a.webhookSecret })) now <;> rfl

/-- The response to a request with a readable body: none when `add` panics (negative
capacity), the acknowledgement otherwise. -/
theorem receiver_response (a : app) (verify : VerifyOptions → VerifyResult) (now : String)
    (body : List Nat) (sig : String) :
    (handleWebhookReceiver a verify now { Body := .ok body, Signature := sig }).response =
      if a.receivedWebhooks.maxSize < 0 then none
      else some { contentType := "application/json", status := 200,
                  body := .obj [("data", .obj [("received", .bool true)])] } := by
  unfold handleWebhookReceiver
  simp only [readRawBody]
  by_cases h : a.receivedWebhooks.maxSize < 0
  · rw [add_of_neg _ _ _ h, if_pos h]
  · rw [add_of_nonneg _ _ _ (by omega), if_neg h]
    rfl

theorem receiver_head (a : app) (verify : VerifyOptions → VerifyResult) (now : String)
    (body : List Nat) (sig : String) (h : 1 ≤ a.receivedWebhooks.maxSize) :
    (list (handleWebhookReceiver a verify now
      { Body := .ok body, Signature := sig }).after.receivedWebhooks).head? =
      some (stamp a.receivedWebhooks (buildReceived body
        (verify { Payload := body, Signature := sig, Secret := a.webhookSecret })) now) := by
  rw [receiver_store, list_step_add_head _ _ _ h]
  rfl

end PlayCamp

namespace PlayCamp

/-- C7 as stated fails: when the verifier answers invalid but still hands back a parsed payload
with one event, the record stored by the receiver carries that event. -/
theorem invalid_payload_keeps_events :
    (list (handleWebhookReceiver { webhookSecret := "secret", receivedWebhooks := newWebhookStore 50 }
        (fun _ => { Valid := false, Error := "signature mismatch",
                    Payload := some { Events := [{ Event := "payment.completed", Timestamp := "t0", IsTest := none, Data := [49] }] } })
        "now" { Body := .ok [49], Signature := "bad" }).after.receivedWebhooks).map
      (fun wh => (wh.Valid, wh.Events)) =
      [(false, [{ Event := "payment.completed", Timestamp := "t0", IsTest := none, Data := [49] }])] := by
  decide

/-- C7 amended, receiver events field: for every readable body and every verdict, with a
capacity of at least 1, the events of the record the receiver stores are the events of the
verdict's payload mapped one-to-one and in order into `webhookEvent` (event, timestamp, isTest
and data copied) whenever a payload was returned, whether the verdict is valid or not, and are
empty when no payload was returned. -/
theorem receiver_events (a : app) (verify : VerifyOptions → VerifyResult) (now : String)
    (body : List Nat) (sig : String) (h : 1 ≤ a.receivedWebhooks.maxSize) :
    (list (handleWebhookReceiver a verify now
      { Body := .ok body, Signature := sig }).after.receivedWebhooks).head?.map
        receivedWebhook.Events =
      some (match (verify { Payload := body, Signature := sig, Secret := a.webhookSecret }).Payload with
        | some payload => payload.Events.map
            (fun evt =>
              { Event := evt.Event, Timestamp := evt.Timestamp, IsTest := evt.IsTest, Data := evt.Data })
        | none => []) := by
  rw [receiver_head a verify now body sig h]
  show some (buildReceived body _).Events = _
  rw [buildReceived_events]
  rfl

theorem receiver_events_witness :
    (list (handleWebhookReceiver { webhookSecret := "secret", receivedWebhooks := newWebhookStore 50 }
        (fun _ => { Valid := true, Error := "",
                    Payload := some { Events := [{ Event := "payment.completed", Timestamp := "t0", IsTest := some true, Data := [49] }] } })
        "now" { Body := .ok [49], Signature := "good" }).after.receivedWebhooks).head?.map
        receivedWebhook.Events =
      some [{ Event := "payment.completed", Timestamp := "t0", IsTest := some true, Data := [49] }] :=
  receiver_events { webhookSecret := "secret", receivedWebhooks := newWebhookStore 50 }
    (fun _ => { Valid := true, Error := "",
                Payload := some { Events := [{ Event := "payment.completed", Timestamp := "t0", IsTest := some true, Data := [49] }] } })
    "now" [49] "good" (by decide)

/-- C8, acknowledgement invariance: for every readable body the response of the receiver does
not depend on the verifier, the signature or the clock, hence not on whether the verdict is
valid or invalid; with a non-negative capacity (`main` uses 50) it is status 200 with the
acknowledgement `received = true` wrapped by `writeJSON`, never an error status or body. -/
theorem ack_invariance (a : app) (verify₁ verify₂ : VerifyOptions → VerifyResult)
    (now₁ now₂ : String) (body : List Nat) (sig₁ sig₂ : String) :
    (handleWebhookReceiver a verify₁ now₁ { Body := .ok body, Signature := sig₁ }).response =
      (handleWebhookReceiver a verify₂ now₂ { Body := .ok body, Signature := sig₂ }).response ∧
    (0 ≤ a.receivedWebhooks.maxSize →
      (handleWebhookReceiver a verify₁ now₁ { Body := .ok body, Signature := sig₁ }).response =
        some { contentType := "application/json", status := 200,
               body := .obj [("data", .obj [("received", .bool true)])] }) := by
  refine ⟨by rw [receiver_response, receiver_response], ?_⟩
  intro h
  rw [receiver_response, if_neg (by omega)]

/-- An authentic and an inauthentic delivery to the app of `main` get the same response. -/
theorem ack_invariance_witness :
    (handleWebhookReceiver { webhookSecret := "secret", receivedWebhooks := newWebhookStore 50 }
        (fun _ => { Valid := true, Error := "", Payload := some { Events := [] } })
        "t1" { Body := .ok [49], Signature := "good" }).response =
      (handleWebhookReceiver { webhookSecret := "secret", receivedWebhooks := newWebhookStore 50 }
        (fun _ => { Valid := false, Error := "signature mismatch", Payload := none })
        "t2" { Body := .ok [49], Signature := "bad" }).response ∧
    (handleWebhookReceiver { webhookSecret := "secret", receivedWebhooks := newWebhookStore 50 }
        (fun _ => { Valid := true, Error := "", Payload := some { Events := [] } })
        "t1" { Body := .ok [49], Signature := "good" }).response =
      some { contentType := "application/json", status := 200,
             body := .obj [("data", .obj [("received", .bool true)])] } :=
  ⟨(ack_invariance { webhookSecret := "secret", receivedWebhooks := newWebhookStore 50 }
      (fun _ => { Valid := true, Error := "", Payload := some { Events := [] } })
      (fun _ => { Valid := false, Error := "signature mismatch", Payload := none })
      "t1" "t2" [49] "good" "bad").1,
   (ack_invariance { webhookSecret := "secret", receivedWebhooks := newWebhookStore 50 }
      (fun _ => { Valid := true, Error := "", Payload := some { Events := [] } })
      (fun _ => { Valid := false, Error := "signature mismatch", Payload := none })
      "t1" "t2" [49] "good" "bad").2 (by decide)⟩

end PlayCamp

namespace PlayCamp

/-- C9 as stated fails at the 64-bit limit: a delivery to an app whose store counter is
`2 ^ 63 - 1` (the state of `limit_state_reachable`) leaves the counter at `-2 ^ 63`; it has not
grown by one. -/
theorem receiver_counter_wraps :
    (handleWebhookReceiver
        { webhookSecret := "secret",
          receivedWebhooks := { webhooks := [], counter := 9223372036854775807, maxSize := 50 } }
        (fun _ => { Valid := true, Error := "", Payload := some { Events := [] } })
        "now" { Body := .ok [49], Signature := "good" }).after.receivedWebhooks.counter =
      -9223372036854775808 ∧
    (handleWebhookReceiver
        { webhookSecret := "secret",
          receivedWebhooks := { webhooks := [], counter := 9223372036854775807, maxSize := 50 } }
        (fun _ => { Valid := true, Error := "", Payload := some { Events := [] } })
        "now" { Body := .ok [49], Signature := "good" }).after.receivedWebhooks.counter ≠
      9223372036854775807 + 1 := by
  decide

/-- C9 amended, unconditional recording: for every readable body and every verdict, valid or
not, the store after the receiver ran is the store after exactly one `add` of the record built
from the body and the verdict; the counter grows by one provided it is a 64-bit value below
`2 ^ 63 - 1`; and for a capacity of at least 1 the first record of `list()` is the new record,
whose `valid` is the verdict's and whose `rawBody` is the body received. -/
theorem receiver_records (a : app) (verify : VerifyOptions → VerifyResult) (now : String)
    (body : List Nat) (sig : String) :
    (handleWebhookReceiver a verify now { Body := .ok body, Signature := sig }).after.receivedWebhooks =
      (add a.receivedWebhooks (buildReceived body
        (verify { Payload := body, Signature := sig, Secret := a.webhookSecret })) now).store ∧
    (-(2 ^ 63) ≤ a.receivedWebhooks.counter → a.receivedWebhooks.counter < 2 ^ 63 - 1 →
      (handleWebhookReceiver a verify now
        { Body := .ok body, Signature := sig }).after.receivedWebhooks.counter =
        a.receivedWebhooks.counter + 1) ∧
    (1 ≤ a.receivedWebhooks.maxSize →
      ∃ wh : receivedWebhook,
        (list (handleWebhookReceiver a verify now
          { Body := .ok body, Signature := sig }).after.receivedWebhooks).head? = some wh ∧
        wh.Valid = (verify { Payload := body, Signature := sig, Secret := a.webhookSecret }).Valid ∧
        wh.RawBody = body) := by
  refine ⟨receiver_store a verify now body sig, ?_, ?_⟩
  · intro h0 h1
    rw [receiver_store]
    show (add _ _ _).store.counter = _
    rw [add_counter]
    exact wrapInt64_of_range _ (by omega) (by omega)
  · intro h
    refine ⟨_, receiver_head a verify now body sig h, ?_, ?_⟩
    · exact buildReceived_valid _ _
    · exact buildReceived_rawBody _ _

/-- An invalid delivery to the app of `main` is recorded like a valid one. -/
theorem receiver_records_witness :
    (handleWebhookReceiver { webhookSecret := "secret", receivedWebhooks := newWebhookStore 50 }
        (fun _ => { Valid := false, Error := "signature mismatch", Payload := none })
        "now" { Body := .ok [49], Signature := "bad" }).after.receivedWebhooks.counter =
      (newWebhookStore 50).counter + 1 ∧
    ∃ wh : receivedWebhook,
      (list (handleWebhookReceiver { webhookSecret := "secret", receivedWebhooks := newWebhookStore 50 }
        (fun _ => { Valid := false, Error := "signature mismatch", Payload := none })
        "now" { Body := .ok [49], Signature := "bad" }).after.receivedWebhooks).head? = some wh ∧
      wh.Valid = false ∧ wh.RawBody = [49] :=
  ⟨(receiver_records { webhookSecret := "secret", receivedWebhooks := newWebhookStore 50 }
      (fun _ => { Valid := false, Error := "signature mismatch", Payload := none })
      "now" [49] "bad").2.1 (by decide) (by decide),
   (receiver_records { webhookSecret := "secret", receivedWebhooks := newWebhookStore 50 }
      (fun _ => { Valid := false, Error := "signature mismatch", Payload := none })
      "now" [49] "bad").2.2 (by decide)⟩

/-- C10 as stated fails: for an invalid verdict whose error string is empty the stored record
is invalid and its error field is empty, so it is not populated although the verdict is
invalid. -/
theorem invalid_verdict_empty_error :
    (list (handleWebhookReceiver { webhookSecret := "secret", receivedWebhooks := newWebhookStore 50 }
        (fun _ => { Valid := false, Error := "", Payload := none })
        "now" { Body := .ok [49], Signature := "bad" }).after.receivedWebhooks).map
      (fun wh => (wh.Valid, wh.Error)) = [(false, "")] := by
  decide

/-- C10 amended, error field: for every readable body and every verdict, with a capacity of at
least 1, the error field of the stored record is the verifier's error string when the verdict
is invalid and is empty when the verdict is valid, even if the verifier returned an error
string; so it is non-empty if and only if the verdict is invalid and the verifier's error
string is non-empty. -/
theorem receiver_error (a : app) (verify : VerifyOptions → VerifyResult) (now : String)
    (body : List Nat) (sig : String) (h : 1 ≤ a.receivedWebhooks.maxSize) :
    ∃ wh : receivedWebhook,
      (list (handleWebhookReceiver a verify now
        { Body := .ok body, Signature := sig }).after.receivedWebhooks).head? = some wh ∧
      ((verify { Payload := body, Signature := sig, Secret := a.webhookSecret }).Valid = false →
        wh.Error = (verify { Payload := body, Signature := sig, Secret := a.webhookSecret }).Error) ∧
      ((verify { Payload := body, Signature := sig, Secret := a.webhookSecret }).Valid = true →
        wh.Error = "") ∧
      (wh.Error ≠ "" ↔
        ((verify { Payload := body, Signature := sig, Secret := a.webhookSecret }).Valid = false ∧
         (verify { Payload := body, Signature := sig, Secret := a.webhookSecret }).Error ≠ "")) := by
  refine ⟨_, receiver_head a verify now body sig h, ?_, ?_, ?_⟩
  · intro hv
    show (buildReceived body _).Error = _
    rw [buildReceived_error, hv]
    rfl
  · intro hv
    show (buildReceived body _).Error = _
    rw [buildReceived_error, hv]
    rfl
  · show (buildReceived body _).Error ≠ "" ↔ _
    rw [buildReceived_error]
    cases hv : (verify { Payload := body, Signature := sig, Secret := a.webhookSecret }).Valid <;>
      simp

/-- A valid verdict that still carries an error string is stored with an empty error. -/
theorem receiver_error_witness :
    ∃ wh : receivedWebhook,
      (list (handleWebhookReceiver { webhookSecret := "secret", receivedWebhooks := newWebhookStore 50 }
        (fun _ => { Valid := true, Error := "left over", Payload := none })
        "now" { Body := .ok [49], Signature := "good" }).after.receivedWebhooks).head? = some wh ∧
      wh.Error = "" := by
  obtain ⟨wh, h1, _, h3, _⟩ :=
    receiver_error { webhookSecret := "secret", receivedWebhooks := newWebhookStore 50 }
      (fun _ => { Valid := true, Error := "left over", Payload := none })
      "now" [49] "good" (by decide)
  exact ⟨wh, h1, h3 rfl⟩

end PlayCamp

namespace PlayCamp

/-! ## Unreadable bodies and the simulator -/

/-- C11, unreadable body: when reading the request body fails, the receiver answers with status
400 and the error message `failed to read body`, logs nothing, and leaves the app and its store
as they were, so `list()` and the counter are what they were before the request; the outcome is
the same for every verifier, signature and clock reading, the verifier is not consulted. -/
theorem unreadable_body (a : app) (verify₁ verify₂ : VerifyOptions → VerifyResult)
    (now₁ now₂ : String) (e : String) (sig₁ sig₂ : String) :
    (handleWebhookReceiver a verify₁ now₁ { Body := .error e, Signature := sig₁ }).response =
      some { contentType := "application/json", status := 400,
             body := .obj [("error", .str "failed to read body")] } ∧
    (handleWebhookReceiver a verify₁ now₁ { Body := .error e, Signature := sig₁ }).after = a ∧
    list (handleWebhookReceiver a verify₁ now₁
      { Body := .error e, Signature := sig₁ }).after.receivedWebhooks = list a.receivedWebhooks ∧
    (handleWebhookReceiver a verify₁ now₁
      { Body := .error e, Signature := sig₁ }).after.receivedWebhooks.counter =
        a.receivedWebhooks.counter ∧
    (handleWebhookReceiver a verify₁ now₁ { Body := .error e, Signature := sig₁ }).logged = [] ∧
    handleWebhookReceiver a verify₁ now₁ { Body := .error e, Signature := sig₁ } =
      handleWebhookReceiver a verify₂ now₂ { Body := .error e, Signature := sig₂ } :=
  ⟨rfl, rfl, rfl, rfl, rfl, rfl⟩

theorem simulate_store (a : app) (now nowAdd : String) (e : String) (d : List Nat) :
    (handleSimulateWebhook a now nowAdd
      { Decoded := .ok { Event := e, Data := d } }).after.receivedWebhooks =
      step a.receivedWebhooks (.add
        { zeroWebhook with
          Valid := true
          Events := [{ Event := e, Timestamp := now, IsTest := none, Data := d }] } nowAdd) := by
  unfold handleSimulateWebhook
  simp only [decodeJSON]
  show _ = (add _ _ _).store
  cases add a.receivedWebhooks
    { zeroWebhook with
      Valid := true
      Events := [{ Event := e, Timestamp := now, IsTest := none, Data := d }] } nowAdd <;> rfl

theorem simulate_response (a : app) (now nowAdd : String) (e : String) (d : List Nat)
    (h : 0 ≤ a.receivedWebhooks.maxSize) :
    (handleSimulateWebhook a now nowAdd { Decoded := .ok { Event := e, Data := d } }).response =
      some { contentType := "application/json", status := 200,
             body := .obj [("data", .obj [("simulated", .bool true)])] } := by
  unfold handleSimulateWebhook
  simp only [decodeJSON]
  rw [add_of_nonneg _ _ _ h]
  rfl

/-- C12, simulator record shape: for every event string `e` and data payload `d` of a decoded
simulate request on a store of capacity at least 1, the first record of `list()` afterwards has
`valid = true`, an empty error, no raw body and exactly one event, with event `e`, data `d`, no
`isTest` and the handler's clock reading as timestamp; the response is status 200 with
`simulated = true` wrapped by `writeJSON`. -/
theorem simulate_record (a : app) (now nowAdd : String) (e : String) (d : List Nat)
    (h : 1 ≤ a.receivedWebhooks.maxSize) :
    (list (handleSimulateWebhook a now nowAdd
      { Decoded := .ok { Event := e, Data := d } }).after.receivedWebhooks).head? =
      some { ID := "wh_" ++ toString (nextCounter a.receivedWebhooks), Valid := true, Error := "",
             Events := [{ Event := e, Timestamp := now, IsTest := none, Data := d }],
             ReceivedAt := nowAdd, RawBody := [] } ∧
    (handleSimulateWebhook a now nowAdd { Decoded := .ok { Event := e, Data := d } }).response =
      some { contentType := "application/json", status := 200,
             body := .obj [("data", .obj [("simulated", .bool true)])] } := by
  refine ⟨?_, simulate_response a now nowAdd e d (by omega)⟩
  rw [simulate_store, list_step_add_head _ _ _ h]
  rfl

/-- Scenario 3 of the spec: event `test.ping`, data the seven bytes of the JSON text with key
`x` and value 1, on the store of `main`. -/
theorem simulate_record_witness :
    (list (handleSimulateWebhook { webhookSecret := "secret", receivedWebhooks := newWebhookStore 50 }
      "t1" "t2" { Decoded := .ok { Event := "test.ping",
                                   Data := [123, 34, 120, 34, 58, 49, 125] } }).after.receivedWebhooks).head? =
      some { ID := "wh_" ++ toString (nextCounter (newWebhookStore 50)), Valid := true, Error := "",
             Events := [{ Event := "test.ping", Timestamp := "t1", IsTest := none,
                          Data := [123, 34, 120, 34, 58, 49, 125] }],
             ReceivedAt := "t2", RawBody := [] } ∧
    (handleSimulateWebhook { webhookSecret := "secret", receivedWebhooks := newWebhookStore 50 }
      "t1" "t2" { Decoded := .ok { Event := "test.ping",
                                   Data := [123, 34, 120, 34, 58, 49, 125] } }).response =
      some { contentType := "application/json", status := 200,
             body := .obj [("data", .obj [("simulated", .bool true)])] } :=
  simulate_record { webhookSecret := "secret", receivedWebhooks := newWebhookStore 50 }
    "t1" "t2" "test.ping" [123, 34, 120, 34, 58, 49, 125] (by decide)

end PlayCamp

namespace PlayCamp

/-! ## Construction, totality and `list` -/

theorem run_zero_capacity (ops : List Op) : ∀ s : webhookStore, s.maxSize = 0 →
    s.webhooks = [] → (run s ops).webhooks = [] := by
  intro s hm hw
  have h := run_length_le ops s (by omega) (by rw [hw, hm]; exact Nat.le_refl _)
  rw [hm] at h
  exact List.eq_nil_of_length_eq_zero (by simpa using h)

/-- C13 as stated fails: `newWebhookStore(0)` and `newWebhookStore(-1)` hand back a store; on
the one of capacity 0 `add`, `list` and `clear` all complete. -/
theorem nonpositive_capacity_accepted :
    newWebhookStore 0 = { webhooks := [], counter := 0, maxSize := 0 } ∧
    newWebhookStore (-1) = { webhooks := [], counter := 0, maxSize := -1 } ∧
    add (newWebhookStore 0) zeroWebhook "t" =
      .returned { webhooks := [], counter := 1, maxSize := 0 } ∧
    anyPanic (newWebhookStore 0) [.add zeroWebhook "t", .list, .clear] = false := by
  decide

/-- C13 amended, no capacity validation: `newWebhookStore(maxSize)` returns, for every integer
`maxSize`, a store with no records, counter 0 and that capacity; nothing is rejected at
construction.  A non-positive capacity shows only at call time: with capacity 0 no call panics
and `list()` stays empty, with a negative capacity every `add` panics. -/
theorem no_capacity_validation (maxSize : Int) :
    newWebhookStore maxSize = { webhooks := [], counter := 0, maxSize := maxSize } ∧
    list (newWebhookStore maxSize) = [] ∧
    (maxSize = 0 → ∀ ops : List Op,
      anyPanic (newWebhookStore maxSize) ops = false ∧
      list (run (newWebhookStore maxSize) ops) = []) ∧
    (maxSize < 0 → ∀ (ops : List Op) (wh : receivedWebhook) (now : String),
      (add (run (newWebhookStore maxSize) ops) wh now).isPanic = true) := by
  refine ⟨rfl, list_eq_webhooks _, ?_, ?_⟩
  · intro h0 ops
    refine ⟨anyPanic_of_nonneg ops _ (by show (0 : Int) ≤ maxSize; omega), ?_⟩
    rw [list_eq_webhooks]
    exact run_zero_capacity ops _ h0 rfl
  · intro hneg ops wh now
    rw [add_of_neg _ wh now (by rw [run_maxSize]; exact hneg)]
    rfl

theorem no_capacity_validation_witness :
    (∀ ops : List Op,
      anyPanic (newWebhookStore 0) ops = false ∧ list (run (newWebhookStore 0) ops) = []) ∧
    (∀ (ops : List Op) (wh : receivedWebhook) (now : String),
      (add (run (newWebhookStore (-1)) ops) wh now).isPanic = true) :=
  ⟨(no_capacity_validation 0).2.2.1 rfl, (no_capacity_validation (-1)).2.2.2 (by decide)⟩

/-- C14 as stated fails: on the store returned by `newWebhookStore(-1)` the first `add` panics
at `s.webhooks[:s.maxSize]`, after the counter was incremented and the record put in front. -/
theorem negative_capacity_add_panics :
    add (newWebhookStore (-1)) zeroWebhook "t" =
      .panicked { webhooks := [{ zeroWebhook with ID := "wh_1", ReceivedAt := "t" }],
                  counter := 1, maxSize := -1 } ∧
    anyPanic (newWebhookStore (-1)) [.add zeroWebhook "t"] = true := by
  decide

/-- C14 amended, totality for non-negative capacities: for every store returned by
`newWebhookStore N` with `N ≥ 0` and every state reachable from it, `add`, `list` and `clear`
complete without panicking, and whenever `add` truncates, the bound `s.maxSize` lies between 0
and the length of the slice; `list` and `clear` complete in every state of every store; with
`N < 0` every `add` panics in every reachable state. -/
theorem store_total (N : Int) (ops : List Op) :
    (0 ≤ N →
      anyPanic (newWebhookStore N) ops = false ∧
      (∀ (wh : receivedWebhook) (now : String),
        add (run (newWebhookStore N) ops) wh now =
          .returned (step (run (newWebhookStore N) ops) (.add wh now)) ∧
        (0 ≤ (run (newWebhookStore N) ops).maxSize ∧
          ((run (newWebhookStore N) ops).maxSize <
              ((stamp (run (newWebhookStore N) ops) wh now ::
                (run (newWebhookStore N) ops).webhooks).length : Int) →
            (run (newWebhookStore N) ops).maxSize.toNat ≤
              (stamp (run (newWebhookStore N) ops) wh now ::
                (run (newWebhookStore N) ops).webhooks).length)))) ∧
    (∀ s : webhookStore, opPanics s .list = false ∧ opPanics s .clear = false) ∧
    (N < 0 → ∀ (wh : receivedWebhook) (now : String),
      (add (run (newWebhookStore N) ops) wh now).isPanic = true) := by
  have hm : (run (newWebhookStore N) ops).maxSize = N := run_maxSize ops _
  refine ⟨?_, fun s => ⟨rfl, rfl⟩, ?_⟩
  · intro hN
    refine ⟨anyPanic_of_nonneg ops _ hN, ?_⟩
    intro wh now
    refine ⟨?_, by rw [hm]; exact hN, ?_⟩
    · rw [step_add_of_nonneg _ wh now (by rw [hm]; exact hN)]
      exact add_of_nonneg _ wh now (by rw [hm]; exact hN)
    · intro hlt
      omega
  · intro hneg wh now
    rw [add_of_neg _ wh now (by rw [hm]; exact hneg)]
    rfl

/-- The store of `main` after three calls: a further `add` returns. -/
theorem store_total_witness :
    anyPanic (newWebhookStore 50) [.add zeroWebhook "t1", .clear, .list] = false ∧
    add (run (newWebhookStore 50) [.add zeroWebhook "t1", .clear, .list]) zeroWebhook "t2" =
      .returned (step (run (newWebhookStore 50) [.add zeroWebhook "t1", .clear, .list])
        (.add zeroWebhook "t2")) ∧
    (add (run (newWebhookStore (-3)) [.add zeroWebhook "t1", .clear, .list]) zeroWebhook "t2").isPanic =
      true :=
  ⟨((store_total 50 [.add zeroWebhook "t1", .clear, .list]).1 (by decide)).1,
   (((store_total 50 [.add zeroWebhook "t1", .clear, .list]).1 (by decide)).2 zeroWebhook "t2").1,
   (store_total (-3) [.add zeroWebhook "t1", .clear, .list]).2.2 (by decide) zeroWebhook "t2"⟩

/-- C15, `list()` is a pure observation: for every store state `list()` returns exactly the
retained records, in the store's order and of the same length, it does not panic and leaves the
store (records, counter, capacity) as it was, so a second `list()` right after it returns the
same sequence. -/
theorem list_pure (s : webhookStore) :
    list s = s.webhooks ∧
    (list s).length = s.webhooks.length ∧
    opPanics s .list = false ∧
    step s .list = s ∧
    (step s .list).webhooks = s.webhooks ∧
    (step s .list).counter = s.counter ∧
    (step s .list).maxSize = s.maxSize ∧
    list (step s .list) = list s :=
  ⟨list_eq_webhooks s, by rw [list_eq_webhooks], rfl, rfl, rfl, rfl, rfl, rfl⟩

end PlayCamp

namespace PlayCamp

/-! ## Contiguous ids -/

theorem ids_cons (c : Int) (len : Nat) :
    ("wh_" ++ toString (c + 1)) ::
        (List.range len).map (fun i : Nat => "wh_" ++ toString (c - (i : Int))) =
      (List.range (len + 1)).map (fun i : Nat => "wh_" ++ toString (c + 1 - (i : Int))) := by
  rw [List.range_succ_eq_map, List.map_cons, List.map_map]
  congr 1
  · simp
  · apply List.map_congr_left
    intro i _
    show "wh_" ++ toString (c - (i : Int)) = "wh_" ++ toString (c + 1 - ((i + 1 : Nat) : Int))
    have : c + 1 - ((i + 1 : Nat) : Int) = c - (i : Int) := by push_cast; omega
    rw [this]

theorem contiguous_step (s : webhookStore) (op : Op) (hm : 0 ≤ s.maxSize) (h0 : 0 ≤ s.counter)
    (h1 : s.counter + (countAdds [op] : Int) < 2 ^ 63) (inv : Contiguous s) :
    Contiguous (step s op) := by
  cases op with
  | list => exact inv
  | clear => exact ⟨rfl, h0⟩
  | add wh now =>
    have hk : countAdds [Op.add wh now] = 1 := rfl
    rw [hk] at h1
    have hn : nextCounter s = s.counter + 1 := nextCounter_eq s h0 (by omega)
    rw [step_add_of_nonneg s wh now hm]
    obtain ⟨hids, hlen⟩ := inv
    constructor
    · show ((stamp s wh now :: s.webhooks).take s.maxSize.toNat).map receivedWebhook.ID =
        (List.range ((stamp s wh now :: s.webhooks).take s.maxSize.toNat).length).map
          (fun i : Nat => "wh_" ++ toString (nextCounter s - (i : Int)))
      rw [List.map_take, List.map_cons, hids, hn]
      show List.take _ (("wh_" ++ toString (nextCounter s)) :: _) = _
      rw [hn, ids_cons, ← List.map_take, List.take_range, List.length_take, List.length_cons]
    · show (((stamp s wh now :: s.webhooks).take s.maxSize.toNat).length : Int) ≤ nextCounter s
      rw [hn, List.length_take, List.length_cons]
      omega

theorem contiguous_run (ops : List Op) : ∀ s : webhookStore, 0 ≤ s.maxSize → 0 ≤ s.counter →
    s.counter + (countAdds ops : Int) < 2 ^ 63 → Contiguous s → Contiguous (run s ops) := by
  induction ops with
  | nil => intro s _ _ _ inv; exact inv
  | cons op ops ih =>
    intro s hm h0 h1 inv
    have hsplit : countAdds (op :: ops) = countAdds [op] + countAdds ops :=
      countAdds_append [op] ops
    rw [hsplit] at h1
    push_cast at h1
    have hc : (step s op).counter = s.counter + (countAdds [op] : Int) := by
      have := run_counter [op] s h0 (by omega)
      exact this
    rw [run_cons]
    refine ih (step s op) (by rw [step_maxSize]; exact hm) (by rw [hc]; omega)
      (by rw [hc]; omega) (contiguous_step s op hm h0 (by omega) inv)

theorem two_adds_ids (s : webhookStore) (w₁ w₂ : receivedWebhook) (t₁ t₂ : String)
    (h : 2 ≤ s.maxSize) :
    ((list (step (step s (.add w₁ t₁)) (.add w₂ t₂))).map receivedWebhook.ID).take 2 =
      ["wh_" ++ toString (nextCounter (step s (.add w₁ t₁))), "wh_" ++ toString (nextCounter s)] := by
  have hm : (step s (.add w₁ t₁)).maxSize = s.maxSize := step_maxSize _ _
  rw [list_step_add_head _ w₂ t₂ (by rw [hm]; omega), hm]
  have hw : (step s (.add w₁ t₁)).webhooks =
      (stamp s w₁ t₁ :: s.webhooks).take s.maxSize.toNat := by
    rw [step_add_of_nonneg s w₁ t₁ (by omega)]
  rw [hw]
  obtain ⟨n, hn⟩ : ∃ n, s.maxSize.toNat = n + 2 := ⟨s.maxSize.toNat - 2, by omega⟩
  rw [hn]
  rfl

end PlayCamp

namespace PlayCamp

theorem nextCounter_step_add (s : webhookStore) (wh : receivedWebhook) (now : String) :
    nextCounter (step s (.add wh now)) = wrapInt64 (nextCounter s + 1) := by
  show wrapInt64 ((add s wh now).store.counter + 1) = _
  rw [add_counter]

/-- C17 as stated fails at the 64-bit limit: after `2 ^ 63` calls to `add` on a fresh store of
capacity 50 the counter is `-2 ^ 63` while the records at positions 0 and 1 carry the ids
`wh_-9223372036854775808` and `wh_9223372036854775807`; the id at position 1 is not `wh_`
followed by `counter - 1`, and the ids are not descending. -/
theorem contiguous_ids_wrap :
    (run (newWebhookStore 50) (addOps (List.replicate (2 ^ 63) (zeroWebhook, "")))).counter =
      -9223372036854775808 ∧
    ((list (run (newWebhookStore 50)
        (addOps (List.replicate (2 ^ 63) (zeroWebhook, ""))))).map receivedWebhook.ID).take 2 =
      ["wh_-9223372036854775808", "wh_9223372036854775807"] ∧
    "wh_9223372036854775807" ≠
      "wh_" ++ toString ((run (newWebhookStore 50)
        (addOps (List.replicate (2 ^ 63) (zeroWebhook, "")))).counter - 1) := by
  have hs1 : List.replicate (2 ^ 63) ((zeroWebhook, "") : receivedWebhook × String) =
      List.replicate (2 ^ 63 - 1) (zeroWebhook, "") ++ [(zeroWebhook, "")] := by
    rw [← List.replicate_succ']
    congr 1
  have hs2 : List.replicate (2 ^ 63 - 1) ((zeroWebhook, "") : receivedWebhook × String) =
      List.replicate (2 ^ 63 - 2) (zeroWebhook, "") ++ [(zeroWebhook, "")] := by
    rw [← List.replicate_succ']
    congr 1
  have hc : (run (newWebhookStore 50)
      (addOps (List.replicate (2 ^ 63) (zeroWebhook, "")))).counter = -9223372036854775808 := by
    rw [run_addOps_counter _ _ (by decide) (by decide), List.length_replicate]
    decide
  have hc2 : (run (newWebhookStore 50)
      (addOps (List.replicate (2 ^ 63 - 2) (zeroWebhook, "")))).counter = 2 ^ 63 - 2 := by
    rw [run_addOps_counter _ _ (by decide) (by decide), List.length_replicate]
    decide
  have hm : (run (newWebhookStore 50)
      (addOps (List.replicate (2 ^ 63 - 2) (zeroWebhook, "")))).maxSize = 50 := run_maxSize _ _
  have hn2 : nextCounter (run (newWebhookStore 50)
      (addOps (List.replicate (2 ^ 63 - 2) (zeroWebhook, "")))) = 2 ^ 63 - 1 := by
    show wrapInt64 (_ + 1) = _
    rw [hc2]
    decide
  refine ⟨hc, ?_, ?_⟩
  · have h2 : 2 ≤ (run (newWebhookStore 50)
        (addOps (List.replicate (2 ^ 63 - 2) (zeroWebhook, "")))).maxSize := by rw [hm]; decide
    rw [hs1, run_addOps_snoc, hs2, run_addOps_snoc, two_adds_ids _ _ _ _ _ h2,
      nextCounter_step_add, hn2]
    decide
  · rw [hc]
    decide

/-- C17 amended, contiguous ids below the 64-bit limit: in every state reached from
`newWebhookStore N`, `N ≥ 0`, by a sequence of `add`, `clear` (and `list`) calls with fewer than
`2 ^ 63` adds, the record at position `i` of `list()` has the id `wh_` followed by
`counter - i`, each such number is at least 1, and the length of the list is at most the
counter; so the ids descend by one from the counter without gaps. -/
theorem contiguous_ids (N : Int) (hN : 0 ≤ N) (ops : List Op) (h : countAdds ops < 2 ^ 63) :
    (∀ i : Nat, i < (list (run (newWebhookStore N) ops)).length →
      (list (run (newWebhookStore N) ops))[i]?.map receivedWebhook.ID =
          some ("wh_" ++ toString ((run (newWebhookStore N) ops).counter - (i : Int))) ∧
        1 ≤ (run (newWebhookStore N) ops).counter - (i : Int)) ∧
    ((list (run (newWebhookStore N) ops)).length : Int) ≤ (run (newWebhookStore N) ops).counter := by
  have hlt : (newWebhookStore N).counter + (countAdds ops : Int) < 2 ^ 63 := by
    show (0 : Int) + (countAdds ops : Int) < 2 ^ 63
    rw [zero_add]
    exact_mod_cast h
  obtain ⟨hids, hlen⟩ := contiguous_run ops (newWebhookStore N) hN (le_refl _) hlt
    ⟨rfl, le_refl _⟩
  rw [list_eq_webhooks]
  refine ⟨?_, hlen⟩
  intro i hi
  refine ⟨?_, by omega⟩
  rw [← List.getElem?_map, hids, List.getElem?_map, List.getElem?_range hi]
  rfl

/-- Capacity 2, three adds with a `clear` after the first: the list holds `wh_3`, `wh_2` and
the counter is 3. -/
theorem contiguous_ids_witness :
    (∀ i : Nat, i < (list (run (newWebhookStore 2)
        [.add zeroWebhook "t1", .clear, .add zeroWebhook "t2", .add zeroWebhook "t3"])).length →
      (list (run (newWebhookStore 2)
        [.add zeroWebhook "t1", .clear, .add zeroWebhook "t2", .add zeroWebhook "t3"]))[i]?.map
          receivedWebhook.ID =
          some ("wh_" ++ toString ((run (newWebhookStore 2)
            [.add zeroWebhook "t1", .clear, .add zeroWebhook "t2",
              .add zeroWebhook "t3"]).counter - (i : Int))) ∧
        1 ≤ (run (newWebhookStore 2)
          [.add zeroWebhook "t1", .clear, .add zeroWebhook "t2",
            .add zeroWebhook "t3"]).counter - (i : Int)) ∧
    ((list (run (newWebhookStore 2)
      [.add zeroWebhook "t1", .clear, .add zeroWebhook "t2", .add zeroWebhook "t3"])).length : Int) ≤
      (run (newWebhookStore 2)
        [.add zeroWebhook "t1", .clear, .add zeroWebhook "t2", .add zeroWebhook "t3"]).counter :=
  contiguous_ids 2 (by decide)
    [.add zeroWebhook "t1", .clear, .add zeroWebhook "t2", .add zeroWebhook "t3"] (by decide)

end PlayCamp
